import Mathlib

/-!
Verification of the redis-go server core against its specification.

The Go source is shallowly embedded: strings are `List Char` (one entry per
byte; all data handled by the server is ASCII/binary-safe and the embedding
is self-consistent, with `length` on both sides counting entries), Go maps
are association lists, `time.Now()` becomes an explicit `now : Int`
(milliseconds) parameter, and fallible operations return `Option`/`Except`.
Each definition mirrors one named Go function of the repository.
-/

set_option maxRecDepth 4000

abbrev Str := List Char

def crlf : Str := ['\r', '\n']

/-- `fmt`'s digit character for a value below ten. -/
def digitChar (n : Nat) : Char := Char.ofNat (48 + n)

def digitVal (c : Char) : Nat := c.toNat - 48

/-- Most-significant-first decimal digit expansion, with fuel to keep the
recursion structural; `natDigits` supplies enough fuel for any value. -/
def natDigitsGo : Nat → Nat → Str
  | 0, _ => []
  | fuel + 1, n =>
    if n < 10 then [digitChar n]
    else natDigitsGo fuel (n / 10) ++ [digitChar (n % 10)]

/-- Decimal rendering of a natural number, as produced by Go's
`fmt.Sprintf("%d", _)` / `strconv.Itoa` for non-negative values. -/
def natDigits (n : Nat) : Str := natDigitsGo (n + 1) n

/-- Decimal rendering of a Go integer (`fmt.Sprintf("%d", _)` /
`strconv.Itoa`). -/
def intDigits (i : Int) : Str :=
  if i < 0 then '-' :: natDigits (-i).toNat else natDigits i.toNat

/-- All-digit string to value; `none` when empty or containing a non-digit.
This is the digit-consuming core shared by Go's `strconv.ParseInt`. -/
def parseDigits (s : Str) : Option Nat :=
  if s = [] then none
  else if s.all Char.isDigit then
    some (s.foldl (fun a c => 10 * a + digitVal c) 0)
  else none

def maxI64 : Int := 2 ^ 63 - 1
def minI64 : Int := -(2 ^ 63)

/-- Go `strconv.ParseInt(s, 10, 64)` (= `strconv.Atoi` on 64-bit platforms)
with the error CHECKED by the caller: `none` on a syntax error or an
out-of-range value. -/
def goParseInt64 (s : Str) : Option Int :=
  match s with
  | '+' :: rest => (parseDigits rest).bind
      (fun n => if (n : Int) ≤ maxI64 then some (n : Int) else none)
  | '-' :: rest => (parseDigits rest).bind
      (fun n => if minI64 ≤ -(n : Int) then some (-(n : Int)) else none)
  | _ => (parseDigits s).bind
      (fun n => if (n : Int) ≤ maxI64 then some (n : Int) else none)

/-- Go `strconv.Atoi` / `ParseInt` with the error DISCARDED (`v, _ := ...`),
as done throughout `ParseRESP`: a syntax error yields the zero value `0`, a
range error yields the clamped extremum Go returns alongside the error. -/
def goAtoiDiscard (s : Str) : Int :=
  match s with
  | '+' :: rest =>
      match parseDigits rest with
      | none => 0
      | some n => min (n : Int) maxI64
  | '-' :: rest =>
      match parseDigits rest with
      | none => 0
      | some n => max (-(n : Int)) minI64
  | _ =>
      match parseDigits s with
      | none => 0
      | some n => min (n : Int) maxI64

/-- `bufio.Reader.ReadString('\n')`: everything up to and including the
first newline; on EOF without a newline the partial tail (the read error is
discarded at every call site). -/
def readLine : Str → Str × Str
  | [] => ([], [])
  | c :: rest =>
    if c = '\n' then ([c], rest)
    else
      let p := readLine rest
      (c :: p.1, p.2)

/-- `strings.TrimSuffix(line, "\r\n")`. -/
def trimCRLF (s : Str) : Str :=
  match s.reverse with
  | '\n' :: '\r' :: t => t.reverse
  | _ => s

/-- `strings.ToUpper` restricted to ASCII, which is all the dispatcher
feeds it. -/
def goToUpperChar (c : Char) : Char :=
  if 'a' ≤ c ∧ c ≤ 'z' then Char.ofNat (c.toNat - 32) else c

def goToUpper (s : Str) : Str := s.map goToUpperChar

-- ## RESP values and the parser (`app/resp`: `RespValue`, `ParseRESP`)
/-- Go `resp.RespValue` (`Type RespType; Value interface{}`).  `bulk none` /
`array none` are the nil payloads.  `arrayRaw` is the degenerate
`{ArrayType, string}` value that only `CapturingConn.GetCapturedResponse`
can build (it stashes the raw bytes of an array reply). -/
inductive RespValue where
  | simple (s : Str)
  | errv (s : Str)
  | intv (i : Int)
  | bulk (s : Option Str)
  | array (items : Option (List RespValue))
  | arrayRaw (s : Str)

/-- Failures of the embedded `ParseRESP`: read error on the prefix byte
(EOF), an unknown prefix byte, or the Go runtime panic raised by
`make`/slicing with a negative length (length prefix below `-1`). -/
inductive PErr where
  | eofE
  | unknownPrefix
  | panicked
deriving DecidableEq, Repr

/-- The item loop of `ParseRESP`'s `'*'` case, with the recursive parse
passed in. -/
def parseItemsGo (p : Str → Except PErr (RespValue × Str)) :
    Nat → Str → Except PErr (List RespValue × Str)
  | 0, input => .ok ([], input)
  | n + 1, input =>
    match p input with
    | .error e => .error e
    | .ok (v, r) =>
      match parseItemsGo p n r with
      | .error e => .error e
      | .ok (vs, r2) => .ok (v :: vs, r2)

/-- `resp.ParseRESP` over a finite input, with explicit recursion fuel (the
Go original recurses on the stream; any fuel at least the nesting depth of
the input gives the stream behaviour).  All `strconv` errors inside are
discarded exactly as in the source (`length, _ := strconv.Atoi(...)`), and
`io.ReadFull`'s error is discarded, so a short bulk body is zero-padded. -/
def parseRESP : Nat → Str → Except PErr (RespValue × Str)
  | 0, _ => .error .eofE
  | _ + 1, [] => .error .eofE
  | f + 1, c :: rest =>
    if c = '+' then
      let p := readLine rest
      .ok (.simple (trimCRLF p.1), p.2)
    else if c = '-' then
      let p := readLine rest
      .ok (.errv (trimCRLF p.1), p.2)
    else if c = ':' then
      let p := readLine rest
      .ok (.intv (goAtoiDiscard (trimCRLF p.1)), p.2)
    else if c = '$' then
      let p := readLine rest
      let len : Int := goAtoiDiscard (trimCRLF p.1)
      if len = -1 then .ok (.bulk none, p.2)
      else if len < -1 then .error .panicked
      else
        let n := len.toNat
        let buf := p.2.take (n + 2) ++ List.replicate ((n + 2) - p.2.length) (Char.ofNat 0)
        .ok (.bulk (some (buf.take n)), p.2.drop (n + 2))
    else if c = '*' then
      let p := readLine rest
      let cnt : Int := goAtoiDiscard (trimCRLF p.1)
      if cnt = -1 then .ok (.array none, p.2)
      else if cnt < -1 then .error .panicked
      else
        match parseItemsGo (parseRESP f) cnt.toNat p.2 with
        | .error e => .error e
        | .ok (items, r2) => .ok (.array (some items), r2)
    else .error .unknownPrefix

-- ## Reply encoders (`resp.ResponseWriter`, cited at
-- `command_processor.go` lines 411-451 and below)
/-- `formatBulkString`. -/
def formatBulkString (s : Str) : Str :=
  '$' :: intDigits s.length ++ crlf ++ s ++ crlf

/-- `formatNullBulkString`. -/
def formatNullBulkString : Str := ['$', '-', '1'] ++ crlf

/-- `formatArrayHeader`. -/
def formatArrayHeader (n : Int) : Str := '*' :: intDigits n ++ crlf

/-- `ResponseWriter.WriteSimpleString`. -/
def writeSimpleString (s : Str) : Str := '+' :: s ++ crlf

/-- `ResponseWriter.WriteError`. -/
def writeError (s : Str) : Str := '-' :: s ++ crlf

/-- `ResponseWriter.WriteInteger`. -/
def writeInteger (i : Int) : Str := ':' :: intDigits i ++ crlf

/-- `ResponseWriter.WriteBulkString`. -/
def writeBulkString (s : Str) : Str := formatBulkString s

/-- `ResponseWriter.WriteNullBulkString`. -/
def writeNullBulkString : Str := formatNullBulkString

/-- `ResponseWriter.WriteNullArray`. -/
def writeNullArray : Str := ['*', '-', '1'] ++ crlf

/-- `ResponseWriter.WriteEmptyArray`. -/
def writeEmptyArray : Str := ['*', '0'] ++ crlf

/-- `ResponseWriter.WriteArray` (array of bulk strings). -/
def writeArray (items : List Str) : Str :=
  formatArrayHeader items.length ++ (items.map formatBulkString).flatten

/-- `formatRespValue`: the per-element serializer of
`WriteTransactionResults`.  Its `switch` has no `ArrayType` case, so any
array value falls to `default` and is emitted as the null bulk string. -/
def formatRespValue (v : RespValue) : Str :=
  match v with
  | .simple s => writeSimpleString s
  | .bulk none => formatNullBulkString
  | .bulk (some s) => formatBulkString s
  | .intv i => writeInteger i
  | .errv s => writeError s
  | _ => formatNullBulkString

/-- `ResponseWriter.WriteTransactionResults`. -/
def writeTransactionResults (results : List RespValue) : Str :=
  formatArrayHeader results.length ++ (results.map formatRespValue).flatten

/-- `resp.StreamEntry`; the Go `Fields` map is embedded as an association
list (the map's iteration order is fixed by the list). -/
structure StreamEntry where
  id : Str
  fields : List (Str × Str)
deriving DecidableEq, Repr

/-- `resp.StreamResult`. -/
structure StreamResult where
  key : Str
  entries : List StreamEntry
deriving DecidableEq, Repr

/-- Field-value flattening used by the stream writers. -/
def fieldPairsFlat (fields : List (Str × Str)) : List Str :=
  fields.flatMap (fun fv => [fv.1, fv.2])

/-- The field-value pair array emitted inside each stream entry frame. -/
def fieldArrayFrame (fields : List (Str × Str)) : Str :=
  formatArrayHeader (2 * fields.length) ++
    ((fieldPairsFlat fields).map formatBulkString).flatten

/-- One entry frame of `WriteStreamEntries`: `*2`, the id, then the
field-value pairs as an array of bulk strings. -/
def streamEntryFrame (e : StreamEntry) : Str :=
  ['*', '2'] ++ crlf ++ formatBulkString e.id ++ fieldArrayFrame e.fields

/-- `ResponseWriter.WriteStreamEntries`. -/
def writeStreamEntries (entries : List StreamEntry) : Str :=
  formatArrayHeader entries.length ++ (entries.map streamEntryFrame).flatten

/-- One result frame of `WriteStreamResults`: `*2`, the key, then the
entries array. -/
def streamResultFrame (r : StreamResult) : Str :=
  ['*', '2'] ++ crlf ++ formatBulkString r.key ++
    formatArrayHeader r.entries.length ++
    (r.entries.map streamEntryFrame).flatten

/-- `ResponseWriter.WriteStreamResults`. -/
def writeStreamResults (results : List StreamResult) : Str :=
  formatArrayHeader results.length ++ (results.map streamResultFrame).flatten

/-- The scalar fragment of `RespValue` on which `formatRespValue` is
faithful: everything except arrays (which its `switch` drops to the null
bulk default), with the line frames free of `\n` and numbers in `int64`
range. -/
def ScalarOk : RespValue → Prop
  | .simple s => '\n' ∉ s
  | .errv s => '\n' ∉ s
  | .intv i => minI64 ≤ i ∧ i ≤ maxI64
  | .bulk none => True
  | .bulk (some s) => (s.length : Int) ≤ maxI64
  | .array _ => False
  | .arrayRaw _ => False

/-- The RESP value tree of one stream entry reply. -/
def entryVal (e : StreamEntry) : RespValue :=
  .array (some [.bulk (some e.id),
    .array (some ((fieldPairsFlat e.fields).map (fun s => .bulk (some s))))])

/-- The RESP value tree of one stream key result in an XREAD reply. -/
def resultVal (res : StreamResult) : RespValue :=
  .array (some [.bulk (some res.key), .array (some (res.entries.map entryVal))])

/-- Size bounds under which a stream entry round-trips (all far beyond
anything a real reply reaches, since Go lengths are `int64`). -/
def EntryOk (e : StreamEntry) : Prop :=
  (e.id.length : Int) ≤ maxI64 ∧ ((2 * e.fields.length : Nat) : Int) ≤ maxI64 ∧
    ∀ s ∈ fieldPairsFlat e.fields, (s.length : Int) ≤ maxI64

def ResultOk (res : StreamResult) : Prop :=
  (res.key.length : Int) ≤ maxI64 ∧ ((res.entries.length : Nat) : Int) ≤ maxI64 ∧
    ∀ e ∈ res.entries, EntryOk e

-- ## The key-value store (`InMemoryKeyValueStore`, `src/unnamed/part_007`)
/-- `Item`: a stored string with an optional absolute expiry instant
(milliseconds; `*time.Time` embedded as `Option Int`). -/
structure Item where
  value : Str
  expiry : Option Int
deriving DecidableEq, Repr

/-- Go map lookup (`v, found := m[k]`), on the association-list model. -/
def assocLookup {β : Type} (k : Str) : List (Str × β) → Option β
  | [] => none
  | (k', v) :: t => if k' = k then some v else assocLookup k t

/-- Go map assignment (`m[k] = v`). -/
def assocInsert {β : Type} (k : Str) (v : β) : List (Str × β) → List (Str × β)
  | [] => [(k, v)]
  | (k', v') :: t => if k' = k then (k, v) :: t else (k', v') :: assocInsert k v t

/-- Go `delete(m, k)`. -/
def assocErase {β : Type} (k : Str) : List (Str × β) → List (Str × β)
  | [] => []
  | (k', v') :: t => if k' = k then t else (k', v') :: assocErase k t

/-- The keyspace of `InMemoryKeyValueStore` (`map[string]Item`). -/
abbrev KV := List (Str × Item)

/-- `Item.IsExpired`: `Expiry != nil && time.Now().After(*Expiry)` (strict). -/
def isExpired (now : Int) (it : Item) : Bool :=
  match it.expiry with
  | none => false
  | some e => decide (e < now)

/-- `InMemoryKeyValueStore.Set`: stores the value; a positive duration (the
optional variadic argument) becomes the absolute instant `now + d`, any
other call leaves no expiry. -/
def kvSet (now : Int) (k v : Str) (expiry : Option Int) (s : KV) : KV :=
  let expiryTime : Option Int :=
    match expiry with
    | some d => if 0 < d then some (now + d) else none
    | none => none
  assocInsert k ⟨v, expiryTime⟩ s

/-- `InMemoryKeyValueStore.Get`: lookup, with lazy deletion of an expired
item (the pair also returns the possibly-modified store; Go mutates in
place).  `none` stands for Go's `("", false)`. -/
def kvGet (now : Int) (k : Str) (s : KV) : Option Str × KV :=
  match assocLookup k s with
  | none => (none, s)
  | some it =>
    if isExpired now it then (none, assocErase k s)
    else (some it.value, s)

/-- `InMemoryKeyValueStore.Delete`. -/
def kvDelete (k : Str) (s : KV) : KV := assocErase k s

-- ## The list store (`DoublyLinkedList` + `InMemoryListStore`,
-- `src/unnamed/part_007`); the doubly-linked list with cached length is
-- embedded as the `List Str` of its values, head first.
abbrev ListsState := List (Str × List Str)

/-- `DoublyLinkedList.PushFront`. -/
def pushFront (v : Str) (l : List Str) : List Str := v :: l

/-- `DoublyLinkedList.PushBack`. -/
def pushBack (v : Str) (l : List Str) : List Str := l ++ [v]

/-- `DoublyLinkedList.PopFront` (value and remaining list, or `none`). -/
def popFront : List Str → Option (Str × List Str)
  | [] => none
  | h :: t => some (h, t)

/-- `DoublyLinkedList.PopFrontMultiple`: pops `min count length` values
(none when `count ≤ 0`); returns the values and the remaining list. -/
def popFrontMultiple (count : Int) (l : List Str) : List Str × List Str :=
  if count ≤ 0 then ([], l)
  else (l.take count.toNat, l.drop count.toNat)

/-- `InMemoryListStore.LPush`: create the list if absent, prepend each value
in argument order, reply the new length (its Go `error` is always nil). -/
def lsLPush (k : Str) (values : List Str) (s : ListsState) : Nat × ListsState :=
  let cur := (assocLookup k s).getD []
  let newList := values.foldl (fun l v => pushFront v l) cur
  (newList.length, assocInsert k newList s)

/-- `InMemoryListStore.RPush`. -/
def lsRPush (k : Str) (values : List Str) (s : ListsState) : Nat × ListsState :=
  let cur := (assocLookup k s).getD []
  let newList := values.foldl (fun l v => pushBack v l) cur
  (newList.length, assocInsert k newList s)

/-- `InMemoryListStore.LPop`: `none` stands for Go's `(nil, false)`; a list
emptied by the pop is deleted from the keyspace. -/
def lsLPop (k : Str) (count : Option Int) (s : ListsState) : Option (List Str) × ListsState :=
  match assocLookup k s with
  | none => (none, s)
  | some l =>
    let popCount : Int :=
      match count with
      | some c => if 0 < c then c else 1
      | none => 1
    if popCount = 1 then
      match popFront l with
      | none => (none, s)
      | some (v, t) =>
        if t.length = 0 then (some [v], assocErase k s)
        else (some [v], assocInsert k t s)
    else
      let p := popFrontMultiple popCount l
      if p.1.length = 0 then (none, s)
      else if p.2.length = 0 then (some p.1, assocErase k s)
      else (some p.1, assocInsert k p.2 s)

-- ## Command handlers.  Client argument frames are embedded as the list of
-- their bulk-string payloads; a handler returns the RESP value its single
-- writer call emits (bytes via the `write*` functions above) plus the new
-- store.
/-- Two's-complement wrap of `int64` arithmetic: Go's `intValue++` at
`math.MaxInt64` wraps to `math.MinInt64` rather than failing. -/
def wrap64 (i : Int) : Int := (i + 2 ^ 63) % 2 ^ 64 - 2 ^ 63

/-- `keyvalue.IncrHandler.Handle` (`src/unnamed/part_005`, registered for
INCR by the processor's handler factory; the copy in `src/unnamed/part_003`
behaves identically): absent key starts from 0; a value that
`strconv.Atoi` rejects is an error; otherwise the incremented value is
stored (no expiry) and replied. -/
def incrHandle (now : Int) (parts : List Str) (s : KV) : RespValue × KV :=
  match parts with
  | [_, key] =>
    let g := kvGet now key s
    match g.1 with
    | some value =>
      match goParseInt64 value with
      | none => (.errv "ERR value is not an integer or out of range".toList, g.2)
      | some i =>
        let newVal := wrap64 (i + 1)
        (.intv newVal, kvSet now key (intDigits newVal) none g.2)
    | none =>
      (.intv 1, kvSet now key (intDigits 1) none g.2)
  | _ => (.errv "ERR wrong number of arguments for 'incr' command".toList, s)

/-- The store call and reply selection shared by `LPopHandler.Handle`
(`src/app/operations.go`) once `count` is known (1 when absent). -/
def lpopCore (key : Str) (count : Int) (s : ListsState) : RespValue × ListsState :=
  let res := lsLPop key (some count) s
  match res.1 with
  | none => (if count = 1 then .bulk none else .array (some []), res.2)
  | some values =>
    if values.length = 0 then
      (if count = 1 then .bulk none else .array (some []), res.2)
    else if count = 1 then (.bulk (some (values.headD [])), res.2)
    else (.array (some (values.map (fun v => .bulk (some v)))), res.2)

/-- `LPopHandler.Handle` (`src/app/operations.go`): the reply shape is
chosen by the numeric `count` (absent ⇒ 1), not by whether the argument was
present. -/
def lpopHandle (parts : List Str) (s : ListsState) : RespValue × ListsState :=
  match parts with
  | [_, key] => lpopCore key 1 s
  | [_, key, countStr] =>
    match goParseInt64 countStr with
    | none => (.errv "ERR invalid count for LPOP".toList, s)
    | some c =>
      if c ≤ 0 then (.errv "ERR invalid count for LPOP".toList, s)
      else lpopCore key c s
  | _ => (.errv "ERR unknown command".toList, s)

/-- `LPushHandler.Handle` (`src/app/operations.go`): neither a type check
nor an error path exists for an existing string key; the push always
succeeds and the new length is replied. -/
def lpushHandle (parts : List Str) (s : ListsState) : RespValue × ListsState :=
  match parts with
  | _ :: key :: v0 :: vrest =>
    let r := lsLPush key (v0 :: vrest) s
    (.intv r.1, r.2)
  | _ => (.errv "ERR unknown command".toList, s)

/-- `keyvalue.GetHandler.Handle` (`src/unnamed/part_005`), at the byte
level for use under the command processor. -/
def getHandle (now : Int) (parts : List Str) (s : KV) : Str × KV :=
  match parts with
  | [_, key] =>
    let r := kvGet now key s
    match r.1 with
    | none => (writeNullBulkString, r.2)
    | some v => (writeBulkString v, r.2)
  | _ => (writeError "ERR wrong number of arguments for 'get' command".toList, s)

/-- The server wires the key-value store and the list store as two separate
components (`NewRedisCommandProcessor(kvStore, listStore)`); the combined
state makes that separation explicit. -/
structure ServerState where
  kv : KV
  lists : ListsState
deriving DecidableEq, Repr

/-- LPUSH as dispatched by the server: it reaches only the list store, the
key-value store is never consulted or modified. -/
def serverLPush (parts : List Str) (st : ServerState) : RespValue × ServerState :=
  let r := lpushHandle parts st.lists
  (r.1, ⟨st.kv, r.2⟩)

-- ## Stream XADD (`XAddHandler`, `src/app/handlers/stream/handlers.go`)
/-- The fixed probe set of `getLastEntryID` / `getEntriesInRange`
("Check for common patterns (simplified implementation for testing)"). -/
def testPatterns : List Str :=
  (["0-1", "0-2", "0-3", "0-4", "0-5",
    "1-0", "1-1", "1-2", "1-3", "1-4", "1-5",
    "2-0", "2-1", "2-2", "2-3", "2-4", "2-5",
    "3-0", "3-1", "3-2", "3-3", "3-4", "3-5",
    "4-0", "4-1", "4-2", "4-3", "4-4", "4-5",
    "5-0", "5-1", "5-2", "5-3", "5-4", "5-5"]).map String.toList

/-- `XAddHandler.parseStreamID`: split on `-` into exactly two non-negative
64-bit decimal components. -/
def parseStreamID (id : Str) : Option (Int × Int) :=
  match id.splitOn '-' with
  | [a, b] =>
    match goParseInt64 a with
    | none => none
    | some ts =>
      if ts < 0 then none
      else
        match goParseInt64 b with
        | none => none
        | some sq => if sq < 0 then none else some (ts, sq)
  | _ => none

/-- `XAddHandler.isIDGreater`: strict lexicographic comparison; false when
either id fails to parse. -/
def isIDGreater (id1 id2 : Str) : Bool :=
  match parseStreamID id1, parseStreamID id2 with
  | some (t1, s1), some (t2, s2) => decide (t1 > t2 ∨ (t1 = t2 ∧ s1 > s2))
  | _, _ => false

/-- The probe loop of `XAddHandler.getLastEntryID`, threading the store
(each `Get` may lazily delete an expired key).  The `ParseInt` errors on the
probe pattern are discarded in the source (`timestamp, _ := ...`). -/
def getLastGo (now : Int) (pfx : Str) :
    List Str → Int → Int → Str → KV → Str × KV
  | [], _, _, lastID, kv => (lastID, kv)
  | pattern :: rest, lastT, lastS, lastID, kv =>
    let g := kvGet now (pfx ++ pattern) kv
    match g.1 with
    | none => getLastGo now pfx rest lastT lastS lastID g.2
    | some _ =>
      match pattern.splitOn '-' with
      | [a, b] =>
        let ts := goAtoiDiscard a
        let sq := goAtoiDiscard b
        if ts > lastT ∨ (ts = lastT ∧ sq > lastS) then
          getLastGo now pfx rest ts sq pattern g.2
        else getLastGo now pfx rest lastT lastS lastID g.2
      | _ => getLastGo now pfx rest lastT lastS lastID g.2

/-- `XAddHandler.getLastEntryID`: probes `key:<pattern>` for every pattern
in the fixed set and returns the largest id found, `""` when none is. -/
def getLastEntryID (now : Int) (key : Str) (s : KV) : Str × KV :=
  getLastGo now (key ++ [':']) testPatterns (-1) (-1) [] s

/-- The `seq = 0..10` probe loop of `getNextSequenceNumber`, returning
`(hasEntriesWithSameTime, maxSequence, store)`. -/
def nextSeqGo (now : Int) (pfx tsStr : Str) :
    List Nat → Bool → Int → KV → Bool × Int × KV
  | [], has, maxSeq, kv => (has, maxSeq, kv)
  | seq :: rest, has, maxSeq, kv =>
    let testKey := pfx ++ tsStr ++ '-' :: intDigits seq
    let g := kvGet now testKey kv
    match g.1 with
    | none => nextSeqGo now pfx tsStr rest has maxSeq g.2
    | some _ => nextSeqGo now pfx tsStr rest true (seq : Int) g.2

/-- `XAddHandler.getNextSequenceNumber`. -/
def getNextSequenceNumber (now : Int) (key : Str) (timestamp : Int) (s : KV) :
    Int × KV :=
  let r := nextSeqGo now (key ++ [':']) (intDigits timestamp) (List.range 11) false (-1) s
  if r.1 then (r.2.1 + 1, r.2.2)
  else if timestamp = 0 then (1, r.2.2) else (0, r.2.2)

/-- The Go `fields` map built from the argument pairs (later duplicate
field names overwrite earlier ones). -/
def fieldsFromParts : List Str → List (Str × Str) → List (Str × Str)
  | f :: v :: rest, acc => fieldsFromParts rest (assocInsert f v acc)
  | _, acc => acc

/-- `strings.Join(_, ",")`. -/
def joinComma : List Str → Str
  | [] => []
  | [x] => x
  | x :: rest => x ++ ',' :: joinComma rest

/-- The final store step of `XAddHandler.Handle`: serialize the field map as
`f:v,...`, `Set(key+":"+entryID, entry)` with no expiry, reply the id as a
bulk string (the stream notifier side effect carries no store state). -/
def xaddStore (now : Int) (key entryID : Str) (fields : List (Str × Str)) (s : KV) :
    RespValue × KV :=
  let entry := joinComma (fields.map (fun fv => fv.1 ++ ':' :: fv.2))
  (.bulk (some entryID), kvSet now (key ++ ':' :: entryID) entry none s)

/-- `XAddHandler.Handle` (`src/app/handlers/stream/handlers.go`), with
`now` the value of `time.Now().UnixMilli()`. -/
def xaddHandle (now : Int) (parts : List Str) (s : KV) : RespValue × KV :=
  match parts with
  | _ :: key :: id :: fieldParts =>
    if fieldParts.length < 2 then
      (.errv "ERR wrong number of arguments for 'xadd' command".toList, s)
    else if fieldParts.length % 2 ≠ 0 then
      (.errv "ERR wrong number of arguments for XADD".toList, s)
    else
      let fields := fieldsFromParts fieldParts []
      let glr := getLastEntryID now key s
      let lastEntryID := glr.1
      let s1 := glr.2
      if id = ['*'] then
        let gns := getNextSequenceNumber now key now s1
        let entryID0 := intDigits now ++ '-' :: intDigits gns.1
        let entryID :=
          if lastEntryID ≠ [] ∧ ¬ isIDGreater entryID0 lastEntryID then
            let lp := (parseStreamID lastEntryID).getD (0, 0)
            if now ≤ lp.1 then intDigits lp.1 ++ '-' :: intDigits (lp.2 + 1)
            else entryID0
          else entryID0
        xaddStore now key entryID fields gns.2
      else if ['-', '*'].isSuffixOf id then
        let tsStr := id.take (id.length - 2)
        match goParseInt64 tsStr with
        | none => (.errv "ERR Invalid stream ID specified as stream command argument".toList, s1)
        | some ts =>
          if ts < 0 then
            (.errv "ERR Invalid stream ID specified as stream command argument".toList, s1)
          else
            let gns := getNextSequenceNumber now key ts s1
            let entryID := intDigits ts ++ '-' :: intDigits gns.1
            if lastEntryID ≠ [] ∧ ¬ isIDGreater entryID lastEntryID then
              (.errv "ERR The ID specified in XADD is equal or smaller than the target stream top item".toList, gns.2)
            else if entryID = "0-0".toList then
              (.errv "ERR The ID specified in XADD must be greater than 0-0".toList, gns.2)
            else xaddStore now key entryID fields gns.2
      else
        match parseStreamID id with
        | none => (.errv "ERR Invalid stream ID specified as stream command argument".toList, s1)
        | some _ =>
          if id = "0-0".toList then
            (.errv "ERR The ID specified in XADD must be greater than 0-0".toList, s1)
          else if lastEntryID ≠ [] ∧ ¬ isIDGreater id lastEntryID then
            (.errv "ERR The ID specified in XADD is equal or smaller than the target stream top item".toList, s1)
          else xaddStore now key id fields s1
  | _ => (.errv "ERR wrong number of arguments for 'xadd' command".toList, s)

-- ## Transaction capture and the command processor
-- (`resp/capturing_writer.go`, `processor/transaction_manager.go`,
-- `processor/handler_factory.go` `CommandProcessor.Process`)
/-- Index of the first `\r\n` in a byte string (`bytes.Index`). -/
def findCRLF : Str → Option Nat
  | '\r' :: '\n' :: _ => some 0
  | _ :: t => (findCRLF t).map (· + 1)
  | [] => none

/-- `fmt.Sscanf("%d")` as used by `CapturingConn` on an integer reply: an
optional sign and the longest digit prefix; no digits leaves the zero
value.  (Replies written by `WriteInteger` are exactly sign+digits, where
this agrees with `ParseInt`.) -/
def sscanfInt (s : Str) : Int :=
  let digitsVal := fun (t : Str) => ((t.takeWhile Char.isDigit).foldl
    (fun a c => 10 * a + digitVal c) 0 : Nat)
  match s with
  | '-' :: t => -(digitsVal t : Int)
  | '+' :: t => (digitsVal t : Int)
  | t => (digitsVal t : Int)

/-- `CapturingConn.parseLastWrite` followed by `GetCapturedResponse`: turn
the single write of a captured handler back into a `RespValue`.  Array
replies keep only their raw bytes (`lastVal = data`), which is the
`arrayRaw` value. -/
def captureValue (b : Str) : RespValue :=
  match b with
  | [] => .bulk none
  | c :: _ =>
    let endIdx := (findCRLF b).getD b.length
    let line := (b.drop 1).take (endIdx - 1)
    if c = '+' then .simple line
    else if c = '-' then .errv line
    else if c = ':' then .intv (sscanfInt line)
    else if c = '$' then
      if b.length > 3 ∧ b.getD 1 ' ' = '-' ∧ b.getD 2 ' ' = '1' then .bulk none
      else
        match findCRLF b with
        | none => .bulk none
        | some idx =>
          if idx + 2 < b.length then
            match findCRLF (b.drop (idx + 2)) with
            | none => .bulk none
            | some second => .bulk (some ((b.drop (idx + 2)).take second))
          else .bulk none
    else if c = '*' then
      if b.length > 3 ∧ b.getD 1 ' ' = '-' ∧ b.getD 2 ' ' = '1' then .array none
      else if b.length > 3 ∧ b.getD 1 ' ' = '0' then .array (some [])
      else .arrayRaw b
    else .bulk none

/-- `processor.TransactionState` for one connection: `InTransaction` plus
the queue of parsed commands (a fresh connection starts with both empty;
there is no other per-transaction field — in particular no dirty flag). -/
structure TxState where
  inTransaction : Bool
  queued : List (List Str)
deriving DecidableEq, Repr

/-- The command names registered by `HandlerFactory.CreateAllHandlers`
(without a config, so INFO is absent, as in `NewCommandProcessor`). -/
def knownCommands : List Str :=
  (["PING", "ECHO", "SET", "GET", "INCR", "TYPE", "LPUSH", "RPUSH", "LPOP",
    "LRANGE", "LLEN", "BLPOP", "MULTI", "EXEC", "DISCARD", "XADD", "XRANGE",
    "XREAD"]).map String.toList

/-- The loop of `CommandProcessor.executeTransaction`: run each queued
command against a capturing writer and collect the captured values.  (The
handlers' returned `error` is the capturing writer's, which is always nil,
so the `err != nil` arm never fires.)  The store is abstract: handlers are
injected dependencies of the processor. -/
def execCapture {σ : Type} (handle : List Str → σ → Str × σ) :
    List (List Str) → σ → List RespValue × σ
  | [], st => ([], st)
  | cmd :: rest, st =>
    let r := handle cmd st
    let p := execCapture handle rest r.2
    (captureValue r.1 :: p.1, p.2)

/-- `CommandProcessor.Process` (`src/app/processor/handler_factory.go`)
together with the `TransactionManager` operations it calls: one command
against one connection's transaction state.  `handle` is the injected
handler table (the dispatch result for non-transaction commands); the
returned `Str` is the reply bytes written to the connection. -/
def processStep {σ : Type} (handle : List Str → σ → Str × σ)
    (parts : List Str) (tx : TxState) (st : σ) : Str × TxState × σ :=
  match parts with
  | [] => (writeError "ERR unknown command".toList, tx, st)
  | cmd :: _ =>
    let cmdU := goToUpper cmd
    if ¬ (knownCommands.contains cmdU) then
      (writeError "ERR unknown command".toList, tx, st)
    else if cmdU = "MULTI".toList then
      (writeSimpleString "OK".toList, ⟨true, []⟩, st)
    else if cmdU = "EXEC".toList then
      if ¬ tx.inTransaction then
        (writeError "ERR EXEC without MULTI".toList, tx, st)
      else if tx.queued = [] then (writeEmptyArray, ⟨false, []⟩, st)
      else
        let r := execCapture handle tx.queued st
        (writeTransactionResults r.1, ⟨false, []⟩, r.2)
    else if cmdU = "DISCARD".toList then
      if ¬ tx.inTransaction then
        (writeError "ERR DISCARD without MULTI".toList, tx, st)
      else (writeSimpleString "OK".toList, ⟨false, []⟩, st)
    else if tx.inTransaction then
      (writeSimpleString "QUEUED".toList, ⟨true, tx.queued ++ [parts]⟩, st)
    else
      let r := handle parts st
      (r.1, tx, r.2)

-- ## C5 and C6: RESP round trip and malformed length prefixes
/-- `ParseRESP` on a self-contained input: fuel one more than the byte
count, which dominates the frame nesting depth (every frame consumes at
least one byte per level). -/
def parseReply (s : Str) : Except PErr (RespValue × Str) := parseRESP (s.length + 1) s

/-- A length prefix on which Go's `strconv.Atoi` reports a syntax error
(and returns the zero value the parser then uses). -/
def atoiSyntaxErr (s : Str) : Bool :=
  match s with
  | '+' :: rest => (parseDigits rest).isNone
  | '-' :: rest => (parseDigits rest).isNone
  | _ => (parseDigits s).isNone

-- ## Theorems

-- ### Arithmetic facts about the decimal helpers
theorem digitVal_digitChar (d : Nat) (h : d < 10) : digitVal (digitChar d) = d := by
  interval_cases d <;> rfl

theorem digitChar_isDigit (d : Nat) (h : d < 10) : (digitChar d).isDigit = true := by
  interval_cases d <;> rfl

theorem natDigitsGo_all_digit (n fuel : Nat) (hf : n < fuel) :
    ∀ c ∈ natDigitsGo fuel n, c.isDigit = true := by
  induction n using Nat.strong_induction_on generalizing fuel with
  | _ n ih =>
    match fuel with
    | f + 1 =>
      rw [natDigitsGo]
      by_cases h : n < 10
      · rw [if_pos h]
        intro c hc
        simp only [List.mem_singleton] at hc
        subst hc
        exact digitChar_isDigit n h
      · rw [if_neg h]
        intro c hc
        rcases List.mem_append.mp hc with h1 | h2
        · have hlt : n / 10 < n := Nat.div_lt_self (by omega) (by omega)
          exact ih (n / 10) hlt f (by omega) c h1
        · simp only [List.mem_singleton] at h2
          subst h2
          exact digitChar_isDigit _ (Nat.mod_lt _ (by omega))

theorem natDigits_all_digit (n : Nat) : ∀ c ∈ natDigits n, c.isDigit = true :=
  natDigitsGo_all_digit n (n + 1) (by omega)

theorem natDigits_ne_nil (n : Nat) : natDigits n ≠ [] := by
  unfold natDigits natDigitsGo
  by_cases h : n < 10 <;> simp [h]

theorem natDigitsGo_foldl (n fuel : Nat) (hf : n < fuel) :
    (natDigitsGo fuel n).foldl (fun a c => 10 * a + digitVal c) 0 = n := by
  induction n using Nat.strong_induction_on generalizing fuel with
  | _ n ih =>
    match fuel with
    | f + 1 =>
      rw [natDigitsGo]
      by_cases h : n < 10
      · rw [if_pos h]
        simp [digitVal_digitChar n h]
      · rw [if_neg h]
        rw [List.foldl_append]
        have hlt : n / 10 < n := Nat.div_lt_self (by omega) (by omega)
        rw [ih (n / 10) hlt f (by omega)]
        simp [digitVal_digitChar (n % 10) (Nat.mod_lt _ (by omega))]
        omega

theorem parseDigits_natDigits (n : Nat) : parseDigits (natDigits n) = some n := by
  unfold parseDigits
  rw [if_neg (natDigits_ne_nil n)]
  rw [if_pos (by simpa [List.all_eq_true] using natDigits_all_digit n)]
  unfold natDigits
  rw [natDigitsGo_foldl n (n + 1) (by omega)]

-- ### Round-trip lemmas: lines and decimals
theorem readLine_no_lf (s : Str) (h : '\n' ∉ s) (r : Str) :
    readLine (s ++ '\n' :: r) = (s ++ ['\n'], r) := by
  induction s with
  | nil => simp [readLine]
  | cons c t ih =>
    have hc : c ≠ '\n' := fun hc => h (hc ▸ List.mem_cons_self c t)
    have ht : '\n' ∉ t := fun hm => h (List.mem_cons_of_mem c hm)
    simp [readLine, hc, ih ht]

theorem trimCRLF_append (s : Str) : trimCRLF (s ++ crlf) = s := by
  simp [trimCRLF, crlf]

theorem readLine_crlf (s : Str) (h : '\n' ∉ s) (r : Str) :
    readLine (s ++ crlf ++ r) = (s ++ crlf, r) := by
  have h' : '\n' ∉ s ++ ['\r'] := by
    intro hm
    rcases List.mem_append.mp hm with h1 | h2
    · exact h h1
    · simp at h2
  have := readLine_no_lf (s ++ ['\r']) h' r
  simpa [crlf, List.append_assoc] using this

theorem natDigits_no_lf (n : Nat) : '\n' ∉ natDigits n := by
  intro hm
  have := natDigits_all_digit n '\n' hm
  simp [Char.isDigit] at this

theorem intDigits_no_lf (i : Int) : '\n' ∉ intDigits i := by
  unfold intDigits
  by_cases h : i < 0
  · rw [if_pos h]
    intro hm
    rcases List.mem_cons.mp hm with h1 | h2
    · simp at h1
    · exact natDigits_no_lf _ h2
  · rw [if_neg h]
    exact natDigits_no_lf _

theorem natDigits_head_digit (n : Nat) :
    ∀ c, natDigits n = c :: (natDigits n).tail → c.isDigit = true := by
  intro c hc
  exact natDigits_all_digit n c (hc ▸ List.mem_cons_self c _)

theorem goAtoiDiscard_natDigits (n : Nat) (h : (n : Int) ≤ maxI64) :
    goAtoiDiscard (natDigits n) = n := by
  have hpd := parseDigits_natDigits n
  have hall := natDigits_all_digit n
  unfold goAtoiDiscard
  split
  · next rest heq =>
    exfalso
    have := hall '+' (heq ▸ List.mem_cons_self _ _)
    simp [Char.isDigit] at this
  · next rest heq =>
    exfalso
    have := hall '-' (heq ▸ List.mem_cons_self _ _)
    simp [Char.isDigit] at this
  · rw [hpd]
    exact min_eq_left h

theorem goAtoiDiscard_intDigits (i : Int) (h1 : minI64 ≤ i) (h2 : i ≤ maxI64) :
    goAtoiDiscard (intDigits i) = i := by
  by_cases h : i < 0
  · unfold intDigits
    rw [if_pos h]
    have : goAtoiDiscard ('-' :: natDigits (-i).toNat) =
        (match parseDigits (natDigits (-i).toNat) with
         | none => (0 : Int)
         | some n => max (-(n : Int)) minI64) := rfl
    rw [this, parseDigits_natDigits]
    have hcast : (((-i).toNat : Int)) = -i := Int.toNat_of_nonneg (by omega)
    show max (-(((-i).toNat : Int))) minI64 = i
    rw [hcast]
    simp only [neg_neg]
    exact max_eq_left h1
  · unfold intDigits
    rw [if_neg h]
    have hcast : ((i.toNat : Int)) = i := Int.toNat_of_nonneg (by omega)
    rw [goAtoiDiscard_natDigits i.toNat (by omega)]
    exact hcast

theorem goParseInt64_natDigits (n : Nat) (h : (n : Int) ≤ maxI64) :
    goParseInt64 (natDigits n) = some (n : Int) := by
  have hpd := parseDigits_natDigits n
  have hall := natDigits_all_digit n
  unfold goParseInt64
  split
  · next rest heq =>
    exfalso
    have := hall '+' (heq ▸ List.mem_cons_self _ _)
    simp [Char.isDigit] at this
  · next rest heq =>
    exfalso
    have := hall '-' (heq ▸ List.mem_cons_self _ _)
    simp [Char.isDigit] at this
  · rw [hpd]
    simp [h]

theorem goParseInt64_intDigits (i : Int) (h1 : minI64 ≤ i) (h2 : i ≤ maxI64) :
    goParseInt64 (intDigits i) = some i := by
  by_cases h : i < 0
  · unfold intDigits
    rw [if_pos h]
    have : goParseInt64 ('-' :: natDigits (-i).toNat) =
        (parseDigits (natDigits (-i).toNat)).bind
          (fun n => if minI64 ≤ -(n : Int) then some (-(n : Int)) else none) := rfl
    rw [this, parseDigits_natDigits]
    have hcast : (((-i).toNat : Int)) = -i := Int.toNat_of_nonneg (by omega)
    show (if minI64 ≤ -(((-i).toNat : Int)) then some (-(((-i).toNat : Int))) else none) = some i
    rw [hcast]
    simp only [neg_neg]
    rw [if_pos h1]
  · unfold intDigits
    rw [if_neg h]
    have hcast : ((i.toNat : Int)) = i := Int.toNat_of_nonneg (by omega)
    rw [goParseInt64_natDigits i.toNat (by omega), hcast]

-- ### Parsing each encoder output (the per-frame round trips)
theorem parse_simple_frame (s : Str) (h : '\n' ∉ s) (f : Nat) (r : Str) :
    parseRESP (f + 1) (writeSimpleString s ++ r) = .ok (.simple s, r) := by
  have he : writeSimpleString s ++ r = '+' :: (s ++ crlf ++ r) := by
    simp [writeSimpleString]
  rw [he]
  simp only [parseRESP, if_pos rfl]
  rw [readLine_crlf s h r]
  simp [trimCRLF_append s]

theorem parse_error_frame (s : Str) (h : '\n' ∉ s) (f : Nat) (r : Str) :
    parseRESP (f + 1) (writeError s ++ r) = .ok (.errv s, r) := by
  have he : writeError s ++ r = '-' :: (s ++ crlf ++ r) := by
    simp [writeError]
  rw [he]
  simp only [parseRESP]
  rw [readLine_crlf s h r]
  simp [trimCRLF_append s]

theorem parse_integer_frame (i : Int) (h1 : minI64 ≤ i) (h2 : i ≤ maxI64) (f : Nat) (r : Str) :
    parseRESP (f + 1) (writeInteger i ++ r) = .ok (.intv i, r) := by
  have he : writeInteger i ++ r = ':' :: (intDigits i ++ crlf ++ r) := by
    simp [writeInteger]
  rw [he]
  simp only [parseRESP]
  rw [readLine_crlf (intDigits i) (intDigits_no_lf i) r]
  simp [trimCRLF_append, goAtoiDiscard_intDigits i h1 h2]

theorem minI64_le_natCast (n : Nat) : minI64 ≤ (n : Int) := by
  have h0 : minI64 ≤ 0 := by norm_num [minI64]
  exact le_trans h0 (Int.natCast_nonneg n)

theorem parse_bulk_frame (s : Str) (hl : (s.length : Int) ≤ maxI64) (f : Nat) (r : Str) :
    parseRESP (f + 1) (formatBulkString s ++ r) = .ok (.bulk (some s), r) := by
  have he : formatBulkString s ++ r =
      '$' :: (intDigits s.length ++ crlf ++ (s ++ crlf ++ r)) := by
    simp [formatBulkString]
  rw [he]
  simp only [parseRESP]
  rw [readLine_crlf (intDigits s.length) (intDigits_no_lf _) (s ++ crlf ++ r)]
  rw [trimCRLF_append]
  rw [goAtoiDiscard_intDigits (s.length : Int) (minI64_le_natCast _) hl]
  rw [if_neg (show ¬((s.length : Int) = -1) from by omega)]
  rw [if_neg (show ¬((s.length : Int) < -1) from by omega)]
  rw [show ((s.length : Int)).toNat = s.length from by simp]
  have hlen : (s ++ crlf).length = s.length + 2 := by simp [crlf]
  have htake : (s ++ crlf ++ r).take (s.length + 2) = s ++ crlf := List.take_left' hlen
  have hdrop : (s ++ crlf ++ r).drop (s.length + 2) = r := List.drop_left' hlen
  have hrep : (s.length + 2) - (s ++ crlf ++ r).length = 0 := by simp [crlf]
  rw [htake, hdrop, hrep]
  simp [List.take_left' (show s.length = s.length from rfl)]

theorem parse_nullbulk_frame (f : Nat) (r : Str) :
    parseRESP (f + 1) (writeNullBulkString ++ r) = .ok (.bulk none, r) := by
  simp [writeNullBulkString, formatNullBulkString, crlf, parseRESP, readLine, trimCRLF,
    goAtoiDiscard, parseDigits, digitVal, minI64, maxI64]

theorem parse_nullarray_frame (f : Nat) (r : Str) :
    parseRESP (f + 1) (writeNullArray ++ r) = .ok (.array none, r) := by
  simp [writeNullArray, crlf, parseRESP, readLine, trimCRLF,
    goAtoiDiscard, parseDigits, digitVal, minI64, maxI64]

theorem parse_emptyarray_frame (f : Nat) (r : Str) :
    parseRESP (f + 1) (writeEmptyArray ++ r) = .ok (.array (some []), r) := by
  simp [writeEmptyArray, crlf, parseRESP, readLine, trimCRLF,
    goAtoiDiscard, parseDigits, digitVal, minI64, maxI64, parseItemsGo]

-- ### Array-level round trips
theorem parseItemsGo_flatten {α : Type} (val : α → RespValue) (frame : α → Str)
    (p : Str → Except PErr (RespValue × Str)) (xs : List α)
    (hp : ∀ a ∈ xs, ∀ r, p (frame a ++ r) = .ok (val a, r)) :
    ∀ r, parseItemsGo p xs.length ((xs.map frame).flatten ++ r) = .ok (xs.map val, r) := by
  induction xs with
  | nil => intro r; simp [parseItemsGo]
  | cons a as ih =>
    intro r
    have ha := hp a (List.mem_cons_self _ _)
    have has : ∀ b ∈ as, ∀ r, p (frame b ++ r) = .ok (val b, r) :=
      fun b hb => hp b (List.mem_cons_of_mem _ hb)
    simp only [List.map_cons, List.flatten_cons, List.length_cons]
    rw [List.append_assoc]
    simp only [parseItemsGo]
    rw [ha ((as.map frame).flatten ++ r)]
    simp [ih has r]

theorem parse_bulk_frameF (s : Str) (hl : (s.length : Int) ≤ maxI64) (f : Nat) (r : Str)
    (hf : 1 ≤ f) : parseRESP f (formatBulkString s ++ r) = .ok (.bulk (some s), r) := by
  obtain ⟨g, rfl⟩ : ∃ g, f = g + 1 := ⟨f - 1, by omega⟩
  exact parse_bulk_frame s hl g r

theorem parse_array_frame (items : List Str)
    (hl : ∀ s ∈ items, (s.length : Int) ≤ maxI64)
    (hn : (items.length : Int) ≤ maxI64) (f : Nat) (r : Str) (hf : 2 ≤ f) :
    parseRESP f (writeArray items ++ r) =
      .ok (.array (some (items.map (fun s => .bulk (some s)))), r) := by
  obtain ⟨g, rfl⟩ : ∃ g, f = g + 2 := ⟨f - 2, by omega⟩
  have he : writeArray items ++ r =
      '*' :: (intDigits items.length ++ crlf ++ ((items.map formatBulkString).flatten ++ r)) := by
    simp [writeArray, formatArrayHeader]
  rw [he]
  simp only [parseRESP]
  rw [readLine_crlf _ (intDigits_no_lf _) _]
  rw [trimCRLF_append]
  rw [goAtoiDiscard_intDigits _ (minI64_le_natCast _) hn]
  rw [if_neg (show ¬((items.length : Int) = -1) from by omega)]
  rw [if_neg (show ¬((items.length : Int) < -1) from by omega)]
  rw [show ((items.length : Int)).toNat = items.length from by simp]
  rw [parseItemsGo_flatten (fun s => RespValue.bulk (some s)) formatBulkString
    (parseRESP (g + 1)) items (fun a ha r => parse_bulk_frame a (hl a ha) g r) r]
  rfl

theorem parse_formatRespValue (v : RespValue) (h : ScalarOk v) (f : Nat) (r : Str) :
    parseRESP (f + 1) (formatRespValue v ++ r) = .ok (v, r) := by
  match v with
  | .simple s => exact parse_simple_frame s h f r
  | .errv s => exact parse_error_frame s h f r
  | .intv i => exact parse_integer_frame i h.1 h.2 f r
  | .bulk none => exact parse_nullbulk_frame f r
  | .bulk (some s) => exact parse_bulk_frame s h f r
  | .array _ => exact absurd h (by simp [ScalarOk])
  | .arrayRaw _ => exact absurd h (by simp [ScalarOk])

theorem parse_transaction_frame (rs : List RespValue)
    (hs : ∀ v ∈ rs, ScalarOk v) (hn : (rs.length : Int) ≤ maxI64)
    (f : Nat) (r : Str) (hf : 2 ≤ f) :
    parseRESP f (writeTransactionResults rs ++ r) = .ok (.array (some rs), r) := by
  obtain ⟨g, rfl⟩ : ∃ g, f = g + 2 := ⟨f - 2, by omega⟩
  have he : writeTransactionResults rs ++ r =
      '*' :: (intDigits rs.length ++ crlf ++ ((rs.map formatRespValue).flatten ++ r)) := by
    simp [writeTransactionResults, formatArrayHeader]
  rw [he]
  simp only [parseRESP]
  rw [readLine_crlf _ (intDigits_no_lf _) _]
  rw [trimCRLF_append]
  rw [goAtoiDiscard_intDigits _ (minI64_le_natCast _) hn]
  rw [if_neg (show ¬((rs.length : Int) = -1) from by omega)]
  rw [if_neg (show ¬((rs.length : Int) < -1) from by omega)]
  rw [show ((rs.length : Int)).toNat = rs.length from by simp]
  have := parseItemsGo_flatten id formatRespValue (parseRESP (g + 1)) rs
    (fun a ha r => parse_formatRespValue a (hs a ha) g r) r
  simp only [List.map_id] at this
  rw [this]
  rfl

-- ### Stream reply round trips
theorem fieldPairsFlat_length (fields : List (Str × Str)) :
    (fieldPairsFlat fields).length = 2 * fields.length := by
  induction fields with
  | nil => rfl
  | cons fv t ih => simp [fieldPairsFlat] at ih ⊢; omega

theorem parse_fieldarray_frame (fields : List (Str × Str))
    (h2 : ((2 * fields.length : Nat) : Int) ≤ maxI64)
    (hfl : ∀ s ∈ fieldPairsFlat fields, (s.length : Int) ≤ maxI64)
    (f : Nat) (r : Str) (hf : 2 ≤ f) :
    parseRESP f (fieldArrayFrame fields ++ r) =
      .ok (.array (some ((fieldPairsFlat fields).map (fun s => .bulk (some s)))), r) := by
  obtain ⟨g, rfl⟩ : ∃ g, f = g + 2 := ⟨f - 2, by omega⟩
  have he : fieldArrayFrame fields ++ r =
      '*' :: (intDigits ((2 * fields.length : Nat) : Int) ++ crlf ++
        (((fieldPairsFlat fields).map formatBulkString).flatten ++ r)) := by
    simp [fieldArrayFrame, formatArrayHeader]
  rw [he]
  simp only [parseRESP]
  rw [readLine_crlf _ (intDigits_no_lf _) _]
  rw [trimCRLF_append]
  rw [goAtoiDiscard_intDigits _ (minI64_le_natCast _) h2]
  rw [if_neg (show ¬(((2 * fields.length : Nat) : Int) = -1) from by omega)]
  rw [if_neg (show ¬(((2 * fields.length : Nat) : Int) < -1) from by omega)]
  rw [show (((2 * fields.length : Nat) : Int)).toNat = (fieldPairsFlat fields).length from by
    rw [fieldPairsFlat_length]; omega]
  rw [parseItemsGo_flatten (fun s => RespValue.bulk (some s)) formatBulkString
    (parseRESP (g + 1)) (fieldPairsFlat fields) (fun a ha r => parse_bulk_frame a (hfl a ha) g r) r]
  rfl

theorem parse_entry_frame (e : StreamEntry) (h : EntryOk e) (f : Nat) (r : Str)
    (hf : 3 ≤ f) : parseRESP f (streamEntryFrame e ++ r) = .ok (entryVal e, r) := by
  obtain ⟨g, rfl⟩ : ∃ g, f = g + 3 := ⟨f - 3, by omega⟩
  have he : streamEntryFrame e ++ r =
      '*' :: (['2'] ++ crlf ++ (formatBulkString e.id ++ (fieldArrayFrame e.fields ++ r))) := by
    simp [streamEntryFrame]
  rw [he]
  simp only [parseRESP]
  rw [readLine_crlf ['2'] (by decide) _]
  rw [trimCRLF_append]
  rw [show goAtoiDiscard ['2'] = 2 from by decide]
  rw [if_neg (show ¬((2 : Int) = -1) from by omega)]
  rw [if_neg (show ¬((2 : Int) < -1) from by omega)]
  rw [show ((2 : Int)).toNat = 2 from rfl]
  have hkey := parse_bulk_frameF e.id h.1 (g + 2) (fieldArrayFrame e.fields ++ r) (by omega)
  have hfa := parse_fieldarray_frame e.fields h.2.1 h.2.2 (g + 2) r (by omega)
  simp only [parseItemsGo, hkey, hfa]
  rfl

theorem parse_streamEntries_frame (entries : List StreamEntry)
    (he : ∀ e ∈ entries, EntryOk e) (hn : (entries.length : Int) ≤ maxI64)
    (f : Nat) (r : Str) (hf : 4 ≤ f) :
    parseRESP f (writeStreamEntries entries ++ r) =
      .ok (.array (some (entries.map entryVal)), r) := by
  obtain ⟨g, rfl⟩ : ∃ g, f = g + 4 := ⟨f - 4, by omega⟩
  have hdec : writeStreamEntries entries ++ r =
      '*' :: (intDigits entries.length ++ crlf ++
        ((entries.map streamEntryFrame).flatten ++ r)) := by
    simp [writeStreamEntries, formatArrayHeader]
  rw [hdec]
  simp only [parseRESP]
  rw [readLine_crlf _ (intDigits_no_lf _) _]
  rw [trimCRLF_append]
  rw [goAtoiDiscard_intDigits _ (minI64_le_natCast _) hn]
  rw [if_neg (show ¬((entries.length : Int) = -1) from by omega)]
  rw [if_neg (show ¬((entries.length : Int) < -1) from by omega)]
  rw [show ((entries.length : Int)).toNat = entries.length from by simp]
  rw [parseItemsGo_flatten entryVal streamEntryFrame (parseRESP (g + 3)) entries
    (fun a ha r => parse_entry_frame a (he a ha) (g + 3) r (by omega)) r]
  rfl

theorem parse_result_frame (res : StreamResult) (h : ResultOk res) (f : Nat) (r : Str)
    (hf : 5 ≤ f) : parseRESP f (streamResultFrame res ++ r) = .ok (resultVal res, r) := by
  obtain ⟨g, rfl⟩ : ∃ g, f = g + 5 := ⟨f - 5, by omega⟩
  have hdec : streamResultFrame res ++ r =
      '*' :: (['2'] ++ crlf ++ (formatBulkString res.key ++
        ((formatArrayHeader res.entries.length ++ (res.entries.map streamEntryFrame).flatten)
          ++ r))) := by
    simp [streamResultFrame]
  rw [hdec]
  simp only [parseRESP]
  rw [readLine_crlf ['2'] (by decide) _]
  rw [trimCRLF_append]
  rw [show goAtoiDiscard ['2'] = 2 from by decide]
  rw [if_neg (show ¬((2 : Int) = -1) from by omega)]
  rw [if_neg (show ¬((2 : Int) < -1) from by omega)]
  rw [show ((2 : Int)).toNat = 2 from rfl]
  have hkey := parse_bulk_frameF res.key h.1 (g + 4)
    ((formatArrayHeader res.entries.length ++ (res.entries.map streamEntryFrame).flatten) ++ r)
    (by omega)
  have hinner : parseRESP (g + 4)
      ((formatArrayHeader res.entries.length ++ (res.entries.map streamEntryFrame).flatten)
        ++ r) = .ok (.array (some (res.entries.map entryVal)), r) := by
    have hdec2 : (formatArrayHeader res.entries.length
        ++ (res.entries.map streamEntryFrame).flatten) ++ r =
        '*' :: (intDigits res.entries.length ++ crlf ++
          ((res.entries.map streamEntryFrame).flatten ++ r)) := by
      simp [formatArrayHeader]
    rw [hdec2]
    simp only [parseRESP]
    rw [readLine_crlf _ (intDigits_no_lf _) _]
    rw [trimCRLF_append]
    rw [goAtoiDiscard_intDigits _ (minI64_le_natCast _) h.2.1]
    rw [if_neg (show ¬((res.entries.length : Int) = -1) from by omega)]
    rw [if_neg (show ¬((res.entries.length : Int) < -1) from by omega)]
    rw [show ((res.entries.length : Int)).toNat = res.entries.length from by simp]
    rw [parseItemsGo_flatten entryVal streamEntryFrame (parseRESP (g + 3)) res.entries
      (fun a ha r => parse_entry_frame a (h.2.2 a ha) (g + 3) r (by omega)) r]
    rfl
  simp only [parseItemsGo, hkey, hinner]
  rfl

theorem parse_streamResults_frame (results : List StreamResult)
    (hr : ∀ res ∈ results, ResultOk res) (hn : (results.length : Int) ≤ maxI64)
    (f : Nat) (r : Str) (hf : 6 ≤ f) :
    parseRESP f (writeStreamResults results ++ r) =
      .ok (.array (some (results.map resultVal)), r) := by
  obtain ⟨g, rfl⟩ : ∃ g, f = g + 6 := ⟨f - 6, by omega⟩
  have hdec : writeStreamResults results ++ r =
      '*' :: (intDigits results.length ++ crlf ++
        ((results.map streamResultFrame).flatten ++ r)) := by
    simp [writeStreamResults, formatArrayHeader]
  rw [hdec]
  simp only [parseRESP]
  rw [readLine_crlf _ (intDigits_no_lf _) _]
  rw [trimCRLF_append]
  rw [goAtoiDiscard_intDigits _ (minI64_le_natCast _) hn]
  rw [if_neg (show ¬((results.length : Int) = -1) from by omega)]
  rw [if_neg (show ¬((results.length : Int) < -1) from by omega)]
  rw [show ((results.length : Int)).toNat = results.length from by simp]
  rw [parseItemsGo_flatten resultVal streamResultFrame (parseRESP (g + 5)) results
    (fun a ha r => parse_result_frame a (hr a ha) (g + 5) r (by omega)) r]
  rfl

-- ## Store lemmas
theorem assocLookup_insert {β : Type} (k : Str) (v : β) (s : List (Str × β)) :
    assocLookup k (assocInsert k v s) = some v := by
  induction s with
  | nil => simp [assocLookup, assocInsert]
  | cons p t ih =>
    by_cases h : p.1 = k
    · simp [assocInsert, assocLookup, h]
    · simp [assocInsert, assocLookup, h, ih]

theorem foldl_pushFront (values cur : List Str) :
    values.foldl (fun l v => pushFront v l) cur = values.reverse ++ cur := by
  induction values generalizing cur with
  | nil => simp
  | cons v t ih => simp [pushFront, ih (v :: cur)]

-- ## C9: lazy expiry of SET ... PX on the first later GET
/-- C9: after a `Set` with a positive expiry duration `t` taken at instant
`setTime`, a `Get` at any instant strictly after `setTime + t` reports the
key absent, and that very access removes the key from the store (the only
deletion mechanism: there is no sweeper in the embedded operations). -/
theorem getAfterExpiryRemoves (s : KV) (k v : Str) (t setTime g : Int)
    (ht : 0 < t) (hg : setTime + t < g) :
    kvGet g k (kvSet setTime k v (some t) s) =
      (none, kvDelete k (kvSet setTime k v (some t) s)) := by
  simp only [kvSet, kvGet, kvDelete, if_pos ht, assocLookup_insert]
  simp [isExpired, hg]

/-- Witness for C9 at `t = 100`, `setTime = 0`, `g = 150`. -/
theorem getAfterExpiryRemoves_witness :
    kvGet 150 "k".toList (kvSet 0 "k".toList "v".toList (some 100) []) =
      (none, kvDelete "k".toList (kvSet 0 "k".toList "v".toList (some 100) [])) :=
  getAfterExpiryRemoves [] "k".toList "v".toList 100 0 150 (by omega) (by omega)

-- ## C10: SET without EX/PX discards any previous expiry
/-- C10: overwriting any prior state of `k` with a `Set` carrying no expiry
stores the value with `Expiry = nil`, so a `Get` at EVERY later (indeed,
any) instant returns the new value and leaves the store untouched. -/
theorem setNoExpiryOverwrites (s : KV) (k v : Str) (setTime g : Int) :
    kvGet g k (kvSet setTime k v none s) = (some v, kvSet setTime k v none s) := by
  simp only [kvSet, kvGet, assocLookup_insert]
  simp [isExpired]

-- ## C4: list operations on a key that holds a string value
/-- C4 counterexample: with the string key `k = "v"` in the key-value
store, `LPUSH k a` succeeds with the integer reply 1 (creating the list in
the separate list store) instead of failing; the reply is not the
`WRONGTYPE` error the claim requires, and the string survives. -/
theorem lpushOnStringKey_counterexample :
    serverLPush ["LPUSH".toList, "k".toList, "a".toList]
        ⟨kvSet 0 "k".toList "v".toList none [], []⟩ =
      (.intv 1, ⟨kvSet 0 "k".toList "v".toList none [], [("k".toList, ["a".toList])]⟩) ∧
    RespValue.intv 1 ≠
      .errv "WRONGTYPE Operation against a key holding the wrong kind of value".toList ∧
    kvGet 5 "k".toList (kvSet 0 "k".toList "v".toList none []) =
      (some "v".toList, kvSet 0 "k".toList "v".toList none []) := by
  refine ⟨rfl, by simp, rfl⟩

/-- C4 amended: a list operation on a key holding a string value does not
fail at all — the list store is a separate keyspace.  `LPUSH` always
replies the integer new length, prepends the values, and leaves the
key-value store (hence the stored string) untouched; no `WRONGTYPE` error
exists in the code. -/
theorem lpushOnStringKey_amended (key v0 : Str) (vrest : List Str)
    (kv : KV) (lists : ListsState) :
    serverLPush ("LPUSH".toList :: key :: v0 :: vrest) ⟨kv, lists⟩ =
      (.intv ((v0 :: vrest).length + ((assocLookup key lists).getD []).length),
        ⟨kv, assocInsert key
          ((v0 :: vrest).reverse ++ (assocLookup key lists).getD []) lists⟩) := by
  simp only [serverLPush, lpushHandle, lsLPush, foldl_pushFront]
  simp
  omega

-- ## C8: LPOP reply shape with and without a count argument
/-- C8 counterexample: on the list `k = [a, b]`, `LPOP k 1` — count
argument PRESENT and equal to 1 — replies the single bulk string `a`, not
the one-element array the claim requires. -/
theorem lpopCountOne_counterexample :
    lpopHandle ["LPOP".toList, "k".toList, "1".toList]
        [("k".toList, ["a".toList, "b".toList])] =
      (.bulk (some "a".toList), [("k".toList, ["b".toList])]) ∧
    RespValue.bulk (some "a".toList) ≠ .array (some [.bulk (some "a".toList)]) := by
  refine ⟨rfl, by simp⟩

/-- `InMemoryListStore.LPop` on an existing non-empty list with a count of
at least 2: pops up to `count` values from the head and deletes the key
when the list empties. -/
theorem lsLPop_multi (k : Str) (l : List Str) (s : ListsState) (n : Int)
    (hl : assocLookup k s = some l) (h2 : 2 ≤ n) (hne : l ≠ []) :
    lsLPop k (some n) s =
      (some (l.take n.toNat),
        if l.drop n.toNat = [] then assocErase k s
        else assocInsert k (l.drop n.toNat) s) := by
  have htne : l.take n.toNat ≠ [] := by
    cases l with
    | nil => exact absurd rfl hne
    | cons a t =>
      match hn : n.toNat with
      | 0 => omega
      | m + 1 => simp [List.take]
  simp only [lsLPop, hl]
  rw [if_pos (by omega : (0 : Int) < n)]
  rw [if_neg (by omega : ¬ n = 1)]
  simp only [popFrontMultiple]
  rw [if_neg (by omega : ¬ n ≤ 0)]
  have hpos : 1 ≤ l.length := by
    cases l with
    | nil => exact absurd rfl hne
    | cons a t => simp
  by_cases hd : l.drop n.toNat = []
  · rw [if_pos hd]
    have hle : l.length ≤ n.toNat := by
      have := congrArg List.length hd
      simp only [List.length_drop, List.length_nil] at this
      omega
    simp only [List.length_take, List.length_drop]
    rw [if_neg (by omega : ¬ (n.toNat ⊓ l.length = 0))]
    rw [if_pos (by omega : l.length - n.toNat = 0)]
  · rw [if_neg hd]
    have hlt : n.toNat < l.length := by
      by_contra hge
      push_neg at hge
      have := congrArg List.length (List.drop_eq_nil_of_le hge)
      simp only [List.length_drop] at this
      exact hd (List.drop_eq_nil_of_le hge)
    simp only [List.length_take, List.length_drop]
    rw [if_neg (by omega : ¬ (n.toNat ⊓ l.length = 0))]
    rw [if_neg (by omega : ¬ (l.length - n.toNat = 0))]

/-- C8 amended: the reply shape of `LPOP` is decided by the numeric count,
not by the presence of the argument: an explicit count of 1 behaves exactly
like an absent count (bulk string, or a null bulk string when the key is
missing); a count of at least 2 replies an array of the popped elements,
or an empty array when the key is missing. -/
theorem lpopReplyShape_amended (key c : Str) (n : Int) (s : ListsState)
    (hc : goParseInt64 c = some n) :
    (n = 1 →
      lpopHandle ["LPOP".toList, key, c] s = lpopHandle ["LPOP".toList, key] s) ∧
    (2 ≤ n → ∀ l, assocLookup key s = some l → l ≠ [] →
      lpopHandle ["LPOP".toList, key, c] s =
        (.array (some ((l.take n.toNat).map (fun v => .bulk (some v)))),
          if l.drop n.toNat = [] then assocErase key s
          else assocInsert key (l.drop n.toNat) s)) ∧
    (2 ≤ n → assocLookup key s = none →
      lpopHandle ["LPOP".toList, key, c] s = (.array (some []), s)) ∧
    (assocLookup key s = none →
      lpopHandle ["LPOP".toList, key] s = (.bulk none, s)) := by
  refine ⟨?_, ?_, ?_, ?_⟩
  · intro h1
    subst h1
    simp [lpopHandle, hc]
  · intro h2 l hl hne
    have htne : l.take n.toNat ≠ [] := by
      cases l with
      | nil => exact absurd rfl hne
      | cons a t =>
        match hn : n.toNat with
        | 0 => omega
        | m + 1 => simp [List.take]
    simp only [lpopHandle, hc]
    rw [if_neg (by omega : ¬ n ≤ 0)]
    simp only [lpopCore, lsLPop_multi key l s n hl h2 hne]
    rw [if_neg (by simpa [List.length_eq_zero] using htne)]
    rw [if_neg (by omega : ¬ n = 1)]
  · intro h2 hl
    simp only [lpopHandle, hc]
    rw [if_neg (by omega : ¬ n ≤ 0)]
    simp only [lpopCore, lsLPop, hl]
    rw [if_neg (by omega : ¬ n = 1)]
  · intro hl
    simp [lpopHandle, lpopCore, lsLPop, hl]

/-- C8 witness: `LPOP k 2` on `k = [a, b, c]` pops two into an array. -/
theorem lpopReplyShape_amended_witness :
    lpopHandle ["LPOP".toList, "k".toList, "2".toList]
        [("k".toList, ["a".toList, "b".toList, "c".toList])] =
      (.array (some [.bulk (some "a".toList), .bulk (some "b".toList)]),
        assocInsert "k".toList ["c".toList]
          [("k".toList, ["a".toList, "b".toList, "c".toList])]) := by
  have h := (lpopReplyShape_amended "k".toList "2".toList 2
    [("k".toList, ["a".toList, "b".toList, "c".toList])] (by decide)).2.1
    (by omega) ["a".toList, "b".toList, "c".toList] rfl (by simp)
  simpa using h

-- ## C7: INCR semantics
theorem goParseInt64_range (s : Str) (i : Int) (h : goParseInt64 s = some i) :
    minI64 ≤ i ∧ i ≤ maxI64 := by
  have hmin : minI64 ≤ 0 := by norm_num [minI64]
  have hmax : (0 : Int) ≤ maxI64 := by norm_num [maxI64]
  unfold goParseInt64 at h
  split at h
  · next rest =>
    rcases hp : parseDigits rest with _ | n <;> rw [hp] at h
    · simp at h
    · simp at h
      obtain ⟨hc, he⟩ := h
      subst he
      exact ⟨le_trans hmin (Int.natCast_nonneg _), hc⟩
  · next rest =>
    rcases hp : parseDigits rest with _ | n <;> rw [hp] at h
    · simp at h
    · simp at h
      obtain ⟨hc, he⟩ := h
      subst he
      exact ⟨hc, le_trans (by omega : -(n : Int) ≤ 0) hmax⟩
  · rcases hp : parseDigits s with _ | n <;> rw [hp] at h
    · simp at h
    · simp at h
      obtain ⟨hc, he⟩ := h
      subst he
      exact ⟨le_trans hmin (Int.natCast_nonneg _), hc⟩

theorem wrap64_eq (i : Int) (h1 : minI64 ≤ i) (h2 : i ≤ maxI64) : wrap64 i = i := by
  unfold wrap64
  norm_num [minI64, maxI64] at h1 h2
  omega

/-- C7 counterexample: INCR on the maximum `int64` value does not fail —
the Go increment wraps and the wrapped value is stored and replied. -/
theorem incrOverflow_counterexample :
    incrHandle 0 ["INCR".toList, "k".toList]
        [("k".toList, ⟨"9223372036854775807".toList, none⟩)] =
      (.intv (-9223372036854775808),
        [("k".toList, ⟨intDigits (-9223372036854775808), none⟩)]) ∧
    RespValue.intv (-9223372036854775808) ≠
      .errv "ERR value is not an integer or out of range".toList ∧
    intDigits (-9223372036854775808) ≠ "9223372036854775807".toList := by
  refine ⟨rfl, by simp, by decide⟩

/-- C7 amended: INCR initializes an absent key to 0 and replies 1; a stored
value that `strconv.Atoi` rejects (non-integer or out of `int64` range)
replies the error and leaves the store unchanged; an in-range value below
`2^63 - 1` is incremented, stored and replied; at exactly `2^63 - 1` the
increment wraps to `-2^63`, which is stored and replied instead of the
error the spec prescribes. -/
theorem incr_amended (now : Int) (key : Str) (kv : KV) :
    (assocLookup key kv = none →
      incrHandle now ["INCR".toList, key] kv =
        (.intv 1, kvSet now key (intDigits 1) none kv)) ∧
    (∀ v, kvGet now key kv = (some v, kv) → goParseInt64 v = none →
      incrHandle now ["INCR".toList, key] kv =
        (.errv "ERR value is not an integer or out of range".toList, kv)) ∧
    (∀ v i, kvGet now key kv = (some v, kv) → goParseInt64 v = some i → i ≠ maxI64 →
      incrHandle now ["INCR".toList, key] kv =
        (.intv (i + 1), kvSet now key (intDigits (i + 1)) none kv)) ∧
    (∀ v, kvGet now key kv = (some v, kv) → goParseInt64 v = some maxI64 →
      incrHandle now ["INCR".toList, key] kv =
        (.intv minI64, kvSet now key (intDigits minI64) none kv)) := by
  refine ⟨?_, ?_, ?_, ?_⟩
  · intro h
    simp [incrHandle, kvGet, h]
  · intro v hv hp
    simp [incrHandle, hv, hp]
  · intro v i hv hp hne
    have hr := goParseInt64_range v i hp
    obtain ⟨hr1, hr2⟩ := hr
    have hw : wrap64 (i + 1) = i + 1 := by
      refine wrap64_eq _ (by omega) ?_
      have : i < maxI64 := lt_of_le_of_ne hr2 hne
      omega
    simp [incrHandle, hv, hp, hw]
  · intro v hv hp
    have hw : wrap64 (maxI64 + 1) = minI64 := by
      norm_num [wrap64, maxI64, minI64]
    simp [incrHandle, hv, hp, hw]

/-- C7 witnesses: absent key replies 1; a non-integer value errors and the
store survives; `41` becomes `42`. -/
theorem incr_amended_witness :
    incrHandle 0 ["INCR".toList, "k".toList] [] =
      (.intv 1, kvSet 0 "k".toList (intDigits 1) none []) ∧
    incrHandle 0 ["INCR".toList, "k".toList] [("k".toList, ⟨"abc".toList, none⟩)] =
      (.errv "ERR value is not an integer or out of range".toList,
        [("k".toList, ⟨"abc".toList, none⟩)]) ∧
    incrHandle 0 ["INCR".toList, "k".toList] [("k".toList, ⟨"41".toList, none⟩)] =
      (.intv 42, kvSet 0 "k".toList (intDigits 42) none
        [("k".toList, ⟨"41".toList, none⟩)]) := by
  refine ⟨(incr_amended 0 "k".toList []).1 rfl,
    (incr_amended 0 "k".toList _).2.1 "abc".toList rfl (by decide),
    ?_⟩
  have h := (incr_amended 0 "k".toList [("k".toList, ⟨"41".toList, none⟩)]).2.2.1
    "41".toList 41 rfl (by decide) (by decide)
  simpa using h

-- ## C1: stream id monotonicity under the probing getLastEntryID
/-- C1: evaluation of the code at the failing input.  Starting from an
empty store, `XADD k 6-0 f v` succeeds; `getLastEntryID` then probes only
the fixed patterns `0-1 .. 5-5`, misses the stored `6-0`, and the second
command `XADD k 0-1 f v` also succeeds — returning the id `0-1`, which is
NOT greater than `6-0`.  The successful-XADD id sequence is therefore not
strictly increasing, contradicting the claim (which matches the spec's
stated intent; the spec itself flags this probing as incorrect). -/
theorem xaddMonotonicity_violation :
    (xaddHandle 1000 ["XADD".toList, "k".toList, "6-0".toList, "f".toList, "v".toList]
        []).1 = .bulk (some "6-0".toList) ∧
    (xaddHandle 1000 ["XADD".toList, "k".toList, "0-1".toList, "f".toList, "v".toList]
        (xaddHandle 1000 ["XADD".toList, "k".toList, "6-0".toList, "f".toList, "v".toList]
          []).2).1 = .bulk (some "0-1".toList) ∧
    isIDGreater "0-1".toList "6-0".toList = false := by
  refine ⟨rfl, rfl, by decide⟩

-- ## C2 and C3: the transaction dispatcher
/-- C2 counterexample: while queueing, `GET` with no key — a command that
fails its arity check — is nevertheless appended to the queue and replied
`QUEUED`, not rejected with its error; no dirty flag exists to be set. -/
theorem queueBadArity_counterexample :
    processStep (getHandle 0) ["GET".toList] ⟨true, []⟩ ([] : KV) =
      (writeSimpleString "QUEUED".toList, ⟨true, [["GET".toList]]⟩, ([] : KV)) ∧
    writeSimpleString "QUEUED".toList ≠
      writeError "ERR wrong number of arguments for 'get' command".toList := by
  refine ⟨rfl, by decide⟩

/-- C2 amended: while queueing, only a command whose name is missing from
the handler table is rejected (`ERR unknown command`, not queued, still
queueing); every known non-transaction command is queued with reply
`QUEUED` regardless of arity; there is no dirty flag, and `EXEC` always
runs the queued commands, replying the serialized array of their captured
results (an empty array for an empty queue) — never the `EXECABORT`
error. -/
theorem queueing_amended {σ : Type} (handle : List Str → σ → Str × σ)
    (cmd : Str) (restParts : List Str) (q : List (List Str)) (st : σ) :
    (goToUpper cmd ∉ knownCommands →
      processStep handle (cmd :: restParts) ⟨true, q⟩ st =
        (writeError "ERR unknown command".toList, ⟨true, q⟩, st)) ∧
    (goToUpper cmd ∈ knownCommands →
      goToUpper cmd ≠ "MULTI".toList → goToUpper cmd ≠ "EXEC".toList →
      goToUpper cmd ≠ "DISCARD".toList →
      processStep handle (cmd :: restParts) ⟨true, q⟩ st =
        (writeSimpleString "QUEUED".toList, ⟨true, q ++ [cmd :: restParts]⟩, st)) ∧
    (q ≠ [] →
      processStep handle ["EXEC".toList] ⟨true, q⟩ st =
        (writeTransactionResults (execCapture handle q st).1, ⟨false, []⟩,
          (execCapture handle q st).2)) ∧
    (processStep handle ["EXEC".toList] ⟨true, []⟩ st =
      (writeEmptyArray, ⟨false, []⟩, st)) ∧
    (∀ rs : List RespValue, writeTransactionResults rs ≠
      writeError "EXECABORT Transaction discarded because of previous errors.".toList) ∧
    (writeEmptyArray ≠
      writeError "EXECABORT Transaction discarded because of previous errors.".toList) := by
  refine ⟨?_, ?_, ?_, ?_, ?_, by decide⟩
  · intro h
    simp [processStep, h]
  · intro h hm he hd
    rw [show ("MULTI".toList : Str) = ['M', 'U', 'L', 'T', 'I'] from rfl] at hm
    rw [show ("EXEC".toList : Str) = ['E', 'X', 'E', 'C'] from rfl] at he
    rw [show ("DISCARD".toList : Str) = ['D', 'I', 'S', 'C', 'A', 'R', 'D'] from rfl] at hd
    simp [processStep, h, hm, he, hd]
  · intro hq
    simp [processStep, hq, goToUpper, goToUpperChar, knownCommands]
  · simp [processStep, goToUpper, goToUpperChar, knownCommands]
  · intro rs
    simp [writeTransactionResults, formatArrayHeader, writeError]

/-- C2 witness: with the real GET handler injected, queue a bad-arity GET
then EXEC: the reply is the result array (here one error element for the
arity failure), not EXECABORT. -/
theorem queueing_amended_witness :
    processStep (getHandle 0) ["GET".toList] ⟨true, []⟩ ([] : KV) =
      (writeSimpleString "QUEUED".toList, ⟨true, [["GET".toList]]⟩, ([] : KV)) ∧
    processStep (getHandle 0) ["EXEC".toList] ⟨true, [["GET".toList]]⟩ ([] : KV) =
      (writeTransactionResults
        [.errv "ERR wrong number of arguments for 'get' command".toList],
        ⟨false, []⟩, ([] : KV)) := by
  constructor
  · have h := (queueing_amended (getHandle 0) "GET".toList [] [] ([] : KV)).2.1
      (by simp [knownCommands, goToUpper, goToUpperChar]) (by decide) (by decide) (by decide)
    simpa using h
  · have h := (queueing_amended (getHandle 0) "EXEC".toList [] [["GET".toList]]
      ([] : KV)).2.2.1 (by simp)
    rw [h]
    rfl

/-- C3 counterexample: with one command queued, a nested `MULTI` replies
`+OK` — not the `ERR MULTI calls can not be nested` error — and the
previously queued command is dropped, not kept intact. -/
theorem nestedMulti_counterexample :
    processStep (getHandle 0) ["MULTI".toList]
        ⟨true, [["SET".toList, "x".toList, "1".toList]]⟩ ([] : KV) =
      (writeSimpleString "OK".toList, ⟨true, []⟩, ([] : KV)) ∧
    writeSimpleString "OK".toList ≠
      writeError "ERR MULTI calls can not be nested".toList ∧
    ([] : List (List Str)) ≠ [["SET".toList, "x".toList, "1".toList]] := by
  refine ⟨rfl, by decide, by simp⟩

/-- C3 amended: `MULTI` issued while already queueing is not rejected: it
replies `+OK` and the connection remains in the queueing state, but
`StartTransaction` clears the already-queued commands. -/
theorem nestedMulti_amended {σ : Type} (handle : List Str → σ → Str × σ)
    (q : List (List Str)) (st : σ) :
    processStep handle ["MULTI".toList] ⟨true, q⟩ st =
      (writeSimpleString "OK".toList, ⟨true, []⟩, st) := by
  simp [processStep, goToUpper, goToUpperChar, knownCommands]

theorem goAtoiDiscard_syntaxErr (s : Str) (h : atoiSyntaxErr s = true) :
    goAtoiDiscard s = 0 := by
  unfold atoiSyntaxErr at h
  unfold goAtoiDiscard
  split at h <;> simp_all [Option.isNone_iff_eq_none]

/-- C5 counterexample: the transaction-results encoder has no `ArrayType`
case, so an EXEC reply whose element is itself an array (for example a
captured empty-array reply) is emitted as the null bulk string; parsing the
encoding yields `[null bulk]`, not the original `[empty array]`. -/
theorem respRoundTrip_counterexample :
    parseReply (writeTransactionResults [.array (some [])]) =
      .ok (.array (some [.bulk none]), []) ∧
    RespValue.bulk none ≠ .array (some []) :=
  ⟨rfl, by simp⟩

/-- C5 amended: `parse (encode x) = x` for everything the encoder emits
EXCEPT a transaction reply containing an array-typed element: simple
strings and errors free of a newline, integers in `int64` range, bulk and
null-bulk strings, null and empty arrays, arrays of bulk strings,
transaction replies whose elements are scalars, and the nested stream
reply shapes (all under the `int64` length bounds Go guarantees, and with
fuel covering the fixed nesting depth). -/
theorem respRoundTrip_amended :
    (∀ s f r, '\n' ∉ s →
      parseRESP (f + 1) (writeSimpleString s ++ r) = .ok (.simple s, r)) ∧
    (∀ s f r, '\n' ∉ s →
      parseRESP (f + 1) (writeError s ++ r) = .ok (.errv s, r)) ∧
    (∀ i f r, minI64 ≤ i → i ≤ maxI64 →
      parseRESP (f + 1) (writeInteger i ++ r) = .ok (.intv i, r)) ∧
    (∀ s f r, (s.length : Int) ≤ maxI64 →
      parseRESP (f + 1) (writeBulkString s ++ r) = .ok (.bulk (some s), r)) ∧
    (∀ f r, parseRESP (f + 1) (writeNullBulkString ++ r) = .ok (.bulk none, r)) ∧
    (∀ f r, parseRESP (f + 1) (writeNullArray ++ r) = .ok (.array none, r)) ∧
    (∀ f r, parseRESP (f + 1) (writeEmptyArray ++ r) = .ok (.array (some []), r)) ∧
    (∀ items f r, (∀ s ∈ items, (s.length : Int) ≤ maxI64) →
      (items.length : Int) ≤ maxI64 → 2 ≤ f →
      parseRESP f (writeArray items ++ r) =
        .ok (.array (some (items.map (fun s => .bulk (some s)))), r)) ∧
    (∀ rs f r, (∀ v ∈ rs, ScalarOk v) → (rs.length : Int) ≤ maxI64 → 2 ≤ f →
      parseRESP f (writeTransactionResults rs ++ r) = .ok (.array (some rs), r)) ∧
    (∀ es f r, (∀ e ∈ es, EntryOk e) → (es.length : Int) ≤ maxI64 → 4 ≤ f →
      parseRESP f (writeStreamEntries es ++ r) =
        .ok (.array (some (es.map entryVal)), r)) ∧
    (∀ results f r, (∀ res ∈ results, ResultOk res) →
      (results.length : Int) ≤ maxI64 → 6 ≤ f →
      parseRESP f (writeStreamResults results ++ r) =
        .ok (.array (some (results.map resultVal)), r)) :=
  ⟨fun s f r h => parse_simple_frame s h f r,
    fun s f r h => parse_error_frame s h f r,
    fun i f r h1 h2 => parse_integer_frame i h1 h2 f r,
    fun s f r h => parse_bulk_frame s h f r,
    parse_nullbulk_frame, parse_nullarray_frame, parse_emptyarray_frame,
    fun items f r h1 h2 hf => parse_array_frame items h1 h2 f r hf,
    fun rs f r h1 h2 hf => parse_transaction_frame rs h1 h2 f r hf,
    fun es f r h1 h2 hf => parse_streamEntries_frame es h1 h2 f r hf,
    fun results f r h1 h2 hf => parse_streamResults_frame results h1 h2 f r hf⟩

/-- C5 witness: the round trip evaluated at one concrete value of each
shape. -/
theorem respRoundTrip_amended_witness :
    parseRESP 1 (writeSimpleString "OK".toList ++ []) = .ok (.simple "OK".toList, []) ∧
    parseRESP 1 (writeError "ERR x".toList ++ []) = .ok (.errv "ERR x".toList, []) ∧
    parseRESP 1 (writeInteger (-42) ++ []) = .ok (.intv (-42), []) ∧
    parseRESP 1 (writeBulkString "hello".toList ++ []) =
      .ok (.bulk (some "hello".toList), []) ∧
    parseRESP 1 (writeNullBulkString ++ []) = .ok (.bulk none, []) ∧
    parseRESP 2 (writeArray ["a".toList, "b".toList] ++ []) =
      .ok (.array (some [.bulk (some "a".toList), .bulk (some "b".toList)]), []) ∧
    parseRESP 2 (writeTransactionResults [.simple "OK".toList, .intv 3] ++ []) =
      .ok (.array (some [.simple "OK".toList, .intv 3]), []) ∧
    parseRESP 4 (writeStreamEntries [⟨"1-1".toList, [("f".toList, "v".toList)]⟩] ++ []) =
      .ok (.array (some [entryVal ⟨"1-1".toList, [("f".toList, "v".toList)]⟩]), []) ∧
    parseRESP 6 (writeStreamResults
        [⟨"s".toList, [⟨"1-1".toList, [("f".toList, "v".toList)]⟩]⟩] ++ []) =
      .ok (.array (some [resultVal ⟨"s".toList,
        [⟨"1-1".toList, [("f".toList, "v".toList)]⟩]⟩]), []) := by
  refine ⟨respRoundTrip_amended.1 "OK".toList 0 [] (by decide),
    respRoundTrip_amended.2.1 "ERR x".toList 0 [] (by decide),
    respRoundTrip_amended.2.2.1 (-42) 0 [] (by decide) (by decide),
    respRoundTrip_amended.2.2.2.1 "hello".toList 0 [] (by decide),
    respRoundTrip_amended.2.2.2.2.1 0 [],
    respRoundTrip_amended.2.2.2.2.2.2.2.1 ["a".toList, "b".toList] 2 []
      (by decide) (by decide) (by omega),
    respRoundTrip_amended.2.2.2.2.2.2.2.2.1 [.simple "OK".toList, .intv 3] 2 []
      ?_ (by decide) (by omega),
    respRoundTrip_amended.2.2.2.2.2.2.2.2.2.1
      [⟨"1-1".toList, [("f".toList, "v".toList)]⟩] 4 [] ?_ (by decide) (by omega),
    respRoundTrip_amended.2.2.2.2.2.2.2.2.2.2
      [⟨"s".toList, [⟨"1-1".toList, [("f".toList, "v".toList)]⟩]⟩] 6 []
      ?_ (by decide) (by omega)⟩
  · intro v hv
    simp only [List.mem_cons, List.mem_singleton, List.not_mem_nil, or_false] at hv
    rcases hv with h | h
    · subst h
      show '\n' ∉ "OK".toList
      decide
    · subst h
      exact ⟨by decide, by decide⟩
  · intro e he
    simp only [List.mem_singleton] at he
    subst he
    refine ⟨by decide, by decide, ?_⟩
    intro s hs
    simp only [fieldPairsFlat] at hs
    simp at hs
    rcases hs with h | h <;> subst h <;> decide
  · intro res hres
    simp only [List.mem_singleton] at hres
    subst hres
    refine ⟨by decide, by decide, ?_⟩
    intro e he
    simp only [List.mem_singleton] at he
    subst he
    refine ⟨by decide, by decide, ?_⟩
    intro s hs
    simp only [fieldPairsFlat] at hs
    simp at hs
    rcases hs with h | h <;> subst h <;> decide

/-- C6 counterexample: a bulk frame with the invalid length prefix `abc`
is parsed SUCCESSFULLY (the discarded `Atoi` error leaves length 0): the
parser returns an empty bulk string rather than any failure, and an array
frame with the same prefix parses as the empty array. -/
theorem malformedLen_counterexample :
    parseReply "$abc\r\nxy".toList = .ok (.bulk (some []), []) ∧
    parseReply "*abc\r\n".toList = .ok (.array (some []), []) :=
  ⟨rfl, rfl⟩

/-- C6 amended: an invalid (syntax-error) length prefix is not rejected:
`strconv.Atoi`'s error is discarded and the Go zero value 0 is used, so a
`$` frame parses successfully as an empty bulk string (consuming two
payload bytes where it expects the closing CRLF) and a `*` frame as an
empty array.  The parser's only failures are EOF on the prefix byte, an
unknown prefix byte, and the runtime panic on a length below -1; no
`Malformed` error exists. -/
theorem malformedLen_amended (ℓ payload : Str) (f : Nat) (h1 : '\n' ∉ ℓ)
    (h2 : atoiSyntaxErr ℓ = true) (hp : 2 ≤ payload.length) :
    parseRESP (f + 1) ('$' :: (ℓ ++ crlf ++ payload)) =
      .ok (.bulk (some []), payload.drop 2) ∧
    parseRESP (f + 1) ('*' :: (ℓ ++ crlf ++ payload)) =
      .ok (.array (some []), payload) := by
  constructor
  · simp only [parseRESP]
    rw [readLine_crlf ℓ h1 payload]
    rw [trimCRLF_append]
    rw [goAtoiDiscard_syntaxErr ℓ h2]
    rw [if_neg (by omega : ¬ ((0 : Int) = -1))]
    rw [if_neg (by omega : ¬ ((0 : Int) < -1))]
    simp [Nat.sub_eq_zero_of_le hp]
  · simp only [parseRESP]
    rw [readLine_crlf ℓ h1 payload]
    rw [trimCRLF_append]
    rw [goAtoiDiscard_syntaxErr ℓ h2]
    rw [if_neg (by omega : ¬ ((0 : Int) = -1))]
    rw [if_neg (by omega : ¬ ((0 : Int) < -1))]
    rfl

/-- C6 witness at the prefix `abc` and payload `xy`. -/
theorem malformedLen_amended_witness :
    parseRESP 1 ('$' :: ("abc".toList ++ crlf ++ "xy".toList)) =
      .ok (.bulk (some []), "xy".toList.drop 2) ∧
    parseRESP 1 ('*' :: ("abc".toList ++ crlf ++ "xy".toList)) =
      .ok (.array (some []), "xy".toList) :=
  malformedLen_amended "abc".toList "xy".toList 0 (by decide) (by decide) (by decide)
